import Mathlib

/-!
Verification of the Slack conversation normalizer
(`starter-code/normalize-for-channel/normalize-conversation-for-slack.js`).

The JavaScript source is shallowly embedded: JS values become the inductive
type `JSValue`, property access and the other fallible operations return
`Except JSErr`, and the `new Promise(resolve => ...)` wrapper of `main`
becomes `PromiseResult` (the ECMAScript Promise constructor catches
exceptions thrown by the executor and rejects the promise, so `main` itself
never throws; see `mainCall`). `JSON.parse` is embedded as an executable
JSON parser over the characters of the string.
-/

set_option autoImplicit false
set_option maxRecDepth 4000

/-- A JavaScript/JSON value: `undefined`, `null`, booleans, numbers
(the program only ever handles integral numbers), strings, arrays, and
objects as ordered association lists of fields (insertion order, as in JS). -/
inductive JSValue where
  | undef : JSValue
  | null : JSValue
  | bool (b : Bool) : JSValue
  | num (n : Int) : JSValue
  | str (s : String) : JSValue
  | arr (elems : List JSValue) : JSValue
  | obj (fields : List (String × JSValue)) : JSValue
deriving Repr, Inhabited

/-- A thrown JavaScript exception, as far as this program can produce one:
an `assert` failure, a `TypeError` (property access on `null`/`undefined`,
calling a missing method), or a `SyntaxError` from `JSON.parse`. -/
inductive JSErr where
  | assertionError (msg : String) : JSErr
  | typeError (msg : String) : JSErr
  | syntaxError (msg : String) : JSErr
deriving Repr, DecidableEq

/-- JavaScript truthiness: `undefined`, `null`, `false`, `0` and the empty
string are falsy; every array and object (including empty ones) is truthy. -/
def truthy : JSValue → Bool
  | .undef => false
  | .null => false
  | .bool b => b
  | .num n => n != 0
  | .str s => s != ""
  | .arr _ => true
  | .obj _ => true

mutual
/-- JavaScript `String(v)` coercion, as used by template literals:
`String(undefined) = "undefined"`, `String(null) = "null"`, arrays join
their elements with commas (eliding `null`/`undefined`), plain objects
print as `"[object Object]"`. -/
def jsToString : JSValue → String
  | .undef => "undefined"
  | .null => "null"
  | .bool b => cond b "true" "false"
  | .num n => toString n
  | .str s => s
  | .arr xs => String.intercalate "," (jsArrStrings xs)
  | .obj _ => "[object Object]"

/-- Element-wise string coercion used by `Array.prototype.join`/`toString`:
`null` and `undefined` elements contribute the empty string. -/
def jsArrStrings : List JSValue → List String
  | [] => []
  | .undef :: xs => "" :: jsArrStrings xs
  | .null :: xs => "" :: jsArrStrings xs
  | x :: xs => jsToString x :: jsArrStrings xs
end

/-- First binding of a key in an object's field list (JS objects have
unique keys, so first and only). -/
def lookupField : List (String × JSValue) → String → Option JSValue
  | [], _ => none
  | (k, v) :: fs, key => if k = key then some v else lookupField fs key

/-- Total property read: `undefined` for a missing key and on every
non-object.  This is the value of `v[key]` whenever `v` is neither `null`
nor `undefined` (no property of an array or primitive is read by name in
this program). -/
def getF (v : JSValue) (key : String) : JSValue :=
  match v with
  | .obj fs => (lookupField fs key).getD .undef
  | _ => (.undef)

/-- Whether a result object carries a key at all (the program distinguishes
a missing `ts` field from a present falsy one). -/
def hasField (v : JSValue) (key : String) : Bool :=
  match v with
  | .obj fs => (lookupField fs key).isSome
  | _ => false

/-- Property access `v.key` with JavaScript's error behavior: reading a
property of `null` or `undefined` throws a `TypeError`; reading a missing
property of anything else yields `undefined`. -/
def fget (v : JSValue) (key : String) : Except JSErr JSValue :=
  match v with
  | .undef => .error (.typeError ("Cannot read property " ++ key ++ " of undefined"))
  | .null => .error (.typeError ("Cannot read property " ++ key ++ " of null"))
  | .obj fs => .ok ((lookupField fs key).getD .undef)
  | _ => .ok (.undef)

/-- Assignment `o[key] = x` on an object: overwrite in place if the key
exists, else append (JS insertion order). On non-objects the write is
dropped (the program only ever assigns into objects). -/
def setFieldList : List (String × JSValue) → String → JSValue → List (String × JSValue)
  | [], key, x => [(key, x)]
  | (k, v) :: fs, key, x => if k = key then (key, x) :: fs else (k, v) :: setFieldList fs key x

/-- Assignment `o[key] = x` at the value level. -/
def setField (v : JSValue) (key : String) (x : JSValue) : JSValue :=
  match v with
  | .obj fs => .obj (setFieldList fs key x)
  | other => other

/-- `typeof v` as a string. -/
def jsTypeof : JSValue → String
  | .undef => "undefined"
  | .null => "object"
  | .bool _ => "boolean"
  | .num _ => "number"
  | .str _ => "string"
  | .arr _ => "object"
  | .obj _ => "object"

/-- `v instanceof Object`: true exactly for arrays and plain objects among
the values this program handles (primitives and `null`/`undefined` are not
instances of `Object`). -/
def instanceOfObject : JSValue → Bool
  | .arr _ => true
  | .obj _ => true
  | _ => false

/-- The enumerable own fields `Object.assign({}, v)` / `Object.keys(v)`
see: an object's fields, an array's or string's indexed elements, and
nothing for the rest. -/
def ownFields : JSValue → List (String × JSValue)
  | .obj fs => fs
  | .arr xs => (List.range xs.length).zip xs |>.map (fun p => (toString p.1, p.2))
  | .str s => (List.range s.length).zip s.toList |>.map (fun p => (toString p.1, JSValue.str (String.mk [p.2])))
  | _ => []

/-- `Object.assign({}, v)`: a fresh object holding the enumerable own
fields of `v`. -/
def objectAssignEmpty (v : JSValue) : JSValue :=
  .obj (ownFields v)

/-- `Object.keys(src).forEach(key => dst[key] = src[key])`: copy every own
field of `src` onto `dst` in key order. -/
def copyKeysOnto (src dst : JSValue) : JSValue :=
  (ownFields src).foldl (fun o kv => setField o kv.1 kv.2) dst

/-! ### JSON parsing (the embedding of `JSON.parse`) -/

def quoteC : Char := Char.ofNat 34
def bslashC : Char := Char.ofNat 92
def lbraceC : Char := Char.ofNat 123
def rbraceC : Char := Char.ofNat 125
def lbrackC : Char := Char.ofNat 91
def rbrackC : Char := Char.ofNat 93
def colonC : Char := Char.ofNat 58
def commaC : Char := Char.ofNat 44
def minusC : Char := Char.ofNat 45
def dotC : Char := Char.ofNat 46
def expLowC : Char := Char.ofNat 101
def expUpC : Char := Char.ofNat 69

/-- Drop leading JSON whitespace (space, tab, CR, LF). -/
def skipWs : List Char → List Char
  | [] => []
  | c :: cs => if c.isWhitespace then skipWs cs else c :: cs

/-- The character denoted by a single-character JSON escape, if legal. -/
def escCharOf (c : Char) : Option Char :=
  if c = quoteC then some quoteC
  else if c = bslashC then some bslashC
  else if c = Char.ofNat 47 then some (Char.ofNat 47)
  else if c = Char.ofNat 98 then some (Char.ofNat 8)
  else if c = Char.ofNat 102 then some (Char.ofNat 12)
  else if c = Char.ofNat 110 then some (Char.ofNat 10)
  else if c = Char.ofNat 114 then some (Char.ofNat 13)
  else if c = Char.ofNat 116 then some (Char.ofNat 9)
  else none

/-- Hexadecimal digit value, for unicode escapes. -/
def hexVal (c : Char) : Option Nat :=
  if c.isDigit then some (c.toNat - 48)
  else if 97 ≤ c.toNat ∧ c.toNat ≤ 102 then some (c.toNat - 87)
  else if 65 ≤ c.toNat ∧ c.toNat ≤ 70 then some (c.toNat - 55)
  else none

/-- Parse the body of a JSON string, starting just after the opening
quote; returns the string and the characters after the closing quote. -/
def parseStringChars : List Char → Option (String × List Char)
  | [] => none
  | c :: cs =>
    if c = quoteC then some ("", cs)
    else if c = bslashC then
      match cs with
      | [] => none
      | e :: cs2 =>
        if e = Char.ofNat 117 then
          match cs2 with
          | h1 :: h2 :: h3 :: h4 :: cs3 =>
            match hexVal h1, hexVal h2, hexVal h3, hexVal h4 with
            | some a, some b, some c3, some d =>
              match parseStringChars cs3 with
              | some (s, rest) =>
                some (String.mk (Char.ofNat (((a * 16 + b) * 16 + c3) * 16 + d) :: s.toList), rest)
              | none => none
            | _, _, _, _ => none
          | _ => none
        else
          match escCharOf e with
          | some ec =>
            match parseStringChars cs2 with
            | some (s, rest) => some (String.mk (ec :: s.toList), rest)
            | none => none
          | none => none
    else
      match parseStringChars cs with
      | some (s, rest) => some (String.mk (c :: s.toList), rest)
      | none => none

/-- Split off a maximal run of decimal digits. -/
def takeDigits : List Char → List Char × List Char
  | [] => ([], [])
  | c :: cs =>
    if c.isDigit then
      let p := takeDigits cs
      (c :: p.1, p.2)
    else ([], c :: cs)

/-- Numeric value of a digit run. -/
def digitsToNat (ds : List Char) : Nat :=
  ds.foldl (fun acc c => acc * 10 + (c.toNat - 48)) 0

/-- Parse a JSON integer (the program never receives fractional numbers;
a fraction or exponent makes the parse fail rather than return a wrong
value). -/
def parseNumber (cs : List Char) : Option (JSValue × List Char) :=
  let neg := cs.head? = some minusC
  let cs1 := if neg then cs.tail else cs
  match takeDigits cs1 with
  | ([], _) => none
  | (ds, rest) =>
    let n : Int := Int.ofNat (digitsToNat ds)
    let v : JSValue := .num (if neg then -n else n)
    match rest with
    | [] => some (v, [])
    | r :: _ => if r = dotC ∨ r = expLowC ∨ r = expUpC then none else some (v, rest)

mutual
/-- Parse one JSON value (fuel-indexed recursive descent). -/
def parseVal : Nat → List Char → Option (JSValue × List Char)
  | 0, _ => none
  | fuel + 1, cs0 =>
    match skipWs cs0 with
    | [] => none
    | c :: cs =>
      if c = lbraceC then
        match skipWs cs with
        | [] => none
        | d :: ds =>
          if d = rbraceC then some (.obj [], ds)
          else
            match parseMembers fuel (d :: ds) with
            | some (ms, rest) => some (.obj ms, rest)
            | none => none
      else if c = lbrackC then
        match skipWs cs with
        | [] => none
        | d :: ds =>
          if d = rbrackC then some (.arr [], ds)
          else
            match parseElems fuel (d :: ds) with
            | some (vs, rest) => some (.arr vs, rest)
            | none => none
      else if c = quoteC then
        match parseStringChars cs with
        | some (s, rest) => some (.str s, rest)
        | none => none
      else if "true".toList.isPrefixOf (c :: cs) then some (.bool true, (c :: cs).drop 4)
      else if "false".toList.isPrefixOf (c :: cs) then some (.bool false, (c :: cs).drop 5)
      else if "null".toList.isPrefixOf (c :: cs) then some (.null, (c :: cs).drop 4)
      else if c = minusC ∨ c.isDigit then parseNumber (c :: cs)
      else none

/-- Parse the members of a JSON object, positioned at the first key's
opening quote. -/
def parseMembers : Nat → List Char → Option (List (String × JSValue) × List Char)
  | 0, _ => none
  | fuel + 1, cs =>
    match cs with
    | [] => none
    | c :: cs1 =>
      if c = quoteC then
        match parseStringChars cs1 with
        | some (key, cs2) =>
          match skipWs cs2 with
          | [] => none
          | d :: cs3 =>
            if d = colonC then
              match parseVal fuel cs3 with
              | some (v, cs4) =>
                match skipWs cs4 with
                | [] => none
                | e :: cs5 =>
                  if e = commaC then
                    match parseMembers fuel (skipWs cs5) with
                    | some (ms, cs6) => some ((key, v) :: ms, cs6)
                    | none => none
                  else if e = rbraceC then some ([(key, v)], cs5)
                  else none
              | none => none
            else none
        | none => none
      else none

/-- Parse the elements of a JSON array, positioned at the first element. -/
def parseElems : Nat → List Char → Option (List JSValue × List Char)
  | 0, _ => none
  | fuel + 1, cs =>
    match parseVal fuel cs with
    | some (v, cs1) =>
      match skipWs cs1 with
      | [] => none
      | e :: cs2 =>
        if e = commaC then
          match parseElems fuel cs2 with
          | some (vs, cs3) => some (v :: vs, cs3)
          | none => none
        else if e = rbrackC then some ([v], cs2)
        else none
    | none => none
end

/-- `JSON.parse` on a string: parse one value and require only trailing
whitespace after it; anything else is a `SyntaxError`. -/
def jsonParseStr (s : String) : Except JSErr JSValue :=
  match parseVal (s.length + 1) s.toList with
  | some (v, rest) =>
    if skipWs rest = [] then .ok v
    else .error (.syntaxError "Unexpected token in JSON")
  | none => .error (.syntaxError "Unexpected token in JSON")

/-- `JSON.parse(v)`: the argument is coerced to a string first (so parsing
a plain object throws, parsing a number succeeds). -/
def jsonParse (v : JSValue) : Except JSErr JSValue :=
  jsonParseStr (jsToString v)

example : jsonParseStr "\x7b\"a\":1,\"b\":[true,null,\"x\"]\x7d" =
    .ok (.obj [("a", .num 1), ("b", .arr [.bool true, .null, .str "x"])]) := by rfl

example : (jsonParseStr "nonsense").isOk = false := by rfl

/-! ### The source constants and functions -/

def urlChatPost : String := "https://slack.com/api/chat.postMessage"
def urlChatUpdate : String := "https://slack.com/api/chat.update"

/-- Node's `assert(value, message)`: throw an `AssertionError` carrying
`message` when `value` is falsy. -/
def jsAssert (v : JSValue) (msg : String) : Except JSErr Unit :=
  if truthy v then .ok () else .error (.assertionError msg)

/-- The value of the short-circuit `a || b` on JS values: `a` itself when
truthy, else the value of `b`. -/
def jsOrE (a : JSValue) (b : Except JSErr JSValue) : Except JSErr JSValue :=
  if truthy a then pure a else b

/-- The value of the short-circuit `a && b` on JS values: `a` itself when
falsy, else the value of `b`. -/
def jsAndE (a : JSValue) (b : Except JSErr JSValue) : Except JSErr JSValue :=
  if truthy a then b else pure a

/-- Whether property access on this value can proceed at all (anything
but `null`/`undefined`). -/
def notNullish : JSValue → Bool
  | .undef => false
  | .null => false
  | _ => true

/-- The recurring idiom `slack.payload && JSON.parse(slack.payload)`:
a falsy payload short-circuits to itself, a truthy one is parsed (and a
truthy unparseable one throws). -/
def payloadAnd (payload : JSValue) : Except JSErr JSValue :=
  if truthy payload then jsonParse payload else .ok payload

/-- `v.join(sep)`: a method of arrays only; on any other value `v.join`
is `undefined` and the call throws a `TypeError`. -/
def jsJoin (v : JSValue) (sep : String) : Except JSErr JSValue :=
  match v with
  | .arr xs => .ok (.str (String.intercalate sep (jsArrStrings xs)))
  | _ => .error (.typeError "join is not a function")

/-- The channel resolution `slackEvent ? slackEvent.channel :
slackPayload && slackPayload.channel && slackPayload.channel.id`,
duplicated verbatim in the source at lines 58-60 (`getSlackChannel`) and
339-341 (`validateParameters`), embedded once. -/
def resolveChannel (slackEvent slackPayload : JSValue) : Except JSErr JSValue :=
  if truthy slackEvent then
    fget slackEvent "channel"
  else if truthy slackPayload then do
    let ch ← fget slackPayload "channel"
    if truthy ch then fget ch "id" else pure ch
  else pure slackPayload

/-- `getSlackChannel` (source lines 53-61): the event's channel for the
event shape, else `payload.channel.id` reached through the short-circuit
chain `slackPayload && slackPayload.channel && slackPayload.channel.id`. -/
def getSlackChannel (params : JSValue) : Except JSErr JSValue := do
  let rid ← fget params "raw_input_data"
  let slack ← fget rid "slack"
  let slackEvent ← fget slack "event"
  let payload ← fget slack "payload"
  let slackPayload ← payloadAnd payload
  resolveChannel slackEvent slackPayload

/-- `getSlackPostUrl` (source lines 69-74): a truthy payload selects
`response_url || urlChatUpdate` from the freshly parsed payload, otherwise
the post-message endpoint. -/
def getSlackPostUrl (params : JSValue) : Except JSErr JSValue := do
  let rid ← fget params "raw_input_data"
  let slack ← fget rid "slack"
  let payload ← fget slack "payload"
  if truthy payload then do
    let parsed ← jsonParse payload
    let ru ← fget parsed "response_url"
    if truthy ru then pure ru else pure (.str urlChatUpdate)
  else pure (.str urlChatPost)

/-- `getOriginalMessageTimestamp` (source lines 292-302):
`(slackEvent.message && slackEvent.message.ts) || slackEvent.ts` for the
event shape, `slackPayload && slackPayload.original_message &&
slackPayload.original_message.ts` otherwise. -/
def getOriginalMessageTimestamp (params : JSValue) : Except JSErr JSValue := do
  let rid ← fget params "raw_input_data"
  let slack ← fget rid "slack"
  let slackEvent ← fget slack "event"
  let payload ← fget slack "payload"
  let slackPayload ← payloadAnd payload
  if truthy slackEvent then do
    let m ← fget slackEvent "message"
    let mts ← jsAndE m (fget m "ts")
    if truthy mts then pure mts else fget slackEvent "ts"
  else if truthy slackPayload then do
    let om ← fget slackPayload "original_message"
    if truthy om then fget om "ts" else pure om
  else pure slackPayload

/-- `getOutputText` (source lines 260-270): join of the conversation
output's text list for the event shape, the original message's text for
the payload shape. -/
def getOutputText (params : JSValue) : Except JSErr JSValue := do
  let rid ← fget params "raw_input_data"
  let slack ← fget rid "slack"
  let slackEvent ← fget slack "event"
  let payload ← fget slack "payload"
  let slackPayload ← payloadAnd payload
  if truthy slackEvent then do
    let conv ← fget params "conversation"
    let out ← fget conv "output"
    let txt ← fget out "text"
    jsJoin txt " "
  else if truthy slackPayload then do
    let om ← fget slackPayload "original_message"
    if truthy om then fget om "text" else pure om
  else pure slackPayload

/-- `getAttachments` (source lines 278-284): `undefined` for the event
shape, a one-element list wrapping the joined conversation text for the
payload shape. -/
def getAttachments (params : JSValue) : Except JSErr JSValue := do
  let rid ← fget params "raw_input_data"
  let slack ← fget rid "slack"
  let slackEvent ← fget slack "event"
  if truthy slackEvent then pure .undef
  else do
    let conv ← fget params "conversation"
    let out ← fget conv "output"
    let txt ← fget out "text"
    let joined ← jsJoin txt " "
    pure (.arr [.obj [("text", joined)]])

/-- `getNormalizedOptionsValue` (source lines 157-166). The middle
`assert(typeof value.input.text, 'string')` passes vacuously (its first
argument is the nonempty string produced by `typeof`), so it only
re-reads `value.input.text`; the final `assert.equal(typeof
normalizedValue, 'string')` does the real type check. -/
def getNormalizedOptionsValue (value : JSValue) : Except JSErr JSValue := do
  let normalizedValue ←
    if instanceOfObject value then do
      let inp ← fget value "input"
      let inpText ← if truthy inp then fget inp "text" else pure inp
      if truthy inpText then do
        let inp2 ← fget value "input"
        fget inp2 "text"
      else .error (.assertionError "Input and text both must be present")
    else pure value
  if jsTypeof normalizedValue = "string" then pure normalizedValue
  else .error (.assertionError "typeof normalizedValue is not equal to string")

/-- `generateSlackImageData` (source lines 175-185). -/
def generateSlackImageData (element : JSValue) : Except JSErr JSValue := do
  let title ← fget element "title"
  let desc ← fget element "description"
  let source ← fget element "source"
  pure (.obj [("attachments",
    .arr [.obj [("title", title), ("pretext", desc), ("image_url", source)]])])

/-- `generateSlackAudioData` (source lines 193-199): the unfurl link is
the template literal interpolation of `source` and `title`. -/
def generateSlackAudioData (element : JSValue) : Except JSErr JSValue := do
  let source ← fget element "source"
  let title ← fget element "title"
  pure (.obj [("text", .str ("<" ++ jsToString source ++ "|" ++ jsToString title ++ ">")),
    ("unfurl_links", .bool true), ("unfurl_media", .bool true)])

/-- `generateSlackVideoData` (source lines 207-213): same shape as the
audio generator. -/
def generateSlackVideoData (element : JSValue) : Except JSErr JSValue := do
  let source ← fget element "source"
  let title ← fget element "title"
  pure (.obj [("text", .str ("<" ++ jsToString source ++ "|" ++ jsToString title ++ ">")),
    ("unfurl_links", .bool true), ("unfurl_media", .bool true)])

/-- `generateSlackOptionsData` (source lines 222-241): map each option to
a button (`element.options.map` throws unless `options` is an array). -/
def generateSlackOptionsData (element : JSValue) : Except JSErr JSValue := do
  let options ← fget element "options"
  match options with
  | .arr optionObjs => do
    let buttonsData ← optionObjs.mapM (fun optionObj => do
      let label ← fget optionObj "label"
      let value ← fget optionObj "value"
      let nv ← getNormalizedOptionsValue value
      pure (JSValue.obj [("name", label), ("type", .str "button"), ("text", label), ("value", nv)]))
    let title ← fget element "title"
    pure (.obj [("attachments",
      .arr [.obj [("text", title), ("callback_id", title), ("actions", .arr buttonsData)]])])
  | _ => .error (.typeError "element.options.map is not a function")

/-- `generateSlackPauseMessage` (source lines 250-252): the element is
returned unchanged. -/
def generateSlackPauseMessage (element : JSValue) : JSValue := element

/-- One arm of the `switch (element.response_type)` in
`insertConversationOutput` (source lines 110-131): the sub-message pushed
for this element, or `none` for the `default` arm, which pushes nothing. -/
def slackMessageOf (element : JSValue) : Except JSErr (Option JSValue) := do
  let rt ← fget element "response_type"
  match rt with
  | .str s =>
    if s = "image" then do
      let m ← generateSlackImageData element
      pure (some m)
    else if s = "audio" then do
      let m ← generateSlackAudioData element
      pure (some m)
    else if s = "video" then do
      let m ← generateSlackVideoData element
      pure (some m)
    else if s = "option" then do
      let m ← generateSlackOptionsData element
      pure (some m)
    else if s = "pause" then pure (some (generateSlackPauseMessage element))
    else if s = "text" then do
      let t ← fget element "text"
      pure (some (.obj [("text", t)]))
    else pure none
  | _ => pure none

/-- The `generic.forEach` push loop: extend the messages pushed so far by
this element's sub-message, if any, and continue with the rest. -/
def buildMessagesAux (acc : List JSValue) : List JSValue → Except JSErr (List JSValue)
  | [] => .ok acc
  | e :: es => do
    let m ← slackMessageOf e
    match m with
    | some msg => buildMessagesAux (acc ++ [msg]) es
    | none => buildMessagesAux acc es

/-- The full message list produced by the `generic.forEach` loop starting
from the freshly assigned `slackOutput.message = []`. -/
def buildMessages (elems : List JSValue) : Except JSErr (List JSValue) :=
  buildMessagesAux [] elems

/-- `generic instanceof Array ? generic : [Object.assign({}, generic)]`
(source lines 102-104). -/
def asGenericList : JSValue → List JSValue
  | .arr xs => xs
  | g => [objectAssignEmpty g]

/-- `insertConversationOutput` (source lines 84-149): platform override
first, then the generic list (after attaching the timestamp), then the
plain-text fallback. -/
def insertConversationOutput (params output : JSValue) : Except JSErr JSValue := do
  let slackOutput := objectAssignEmpty output
  let conv ← fget params "conversation"
  let out ← fget conv "output"
  let slackOverride ← fget out "slack"
  if truthy slackOverride then
    pure (copyKeysOnto slackOverride slackOutput)
  else do
    let ts ← getOriginalMessageTimestamp params
    let slackOutput := if truthy ts then setField slackOutput "ts" ts else slackOutput
    let generic ← fget out "generic"
    if truthy generic then do
      let msgs ← buildMessages (asGenericList generic)
      pure (setField slackOutput "message" (.arr msgs))
    else do
      let text ← getOutputText params
      let slackOutput := if truthy text then setField slackOutput "text" text else slackOutput
      let attachments ← getAttachments params
      let slackOutput := if truthy attachments then setField slackOutput "attachments" attachments else slackOutput
      pure slackOutput

/-- `validateParameters` (source lines 309-343), with the `||` chain of
the content assert and the channel resolution written out with their
short-circuit value semantics. -/
def validateParameters (params : JSValue) : Except JSErr Unit := do
  let conv ← fget params "conversation"
  jsAssert conv "No conversation output."
  let out ← fget conv "output"
  jsAssert out "No conversation output message."
  let s ← fget out "slack"
  let orVal1 ← jsOrE s (fget out "generic")
  let orVal2 ← jsOrE orVal1 (fget out "text")
  jsAssert orVal2 "No facebook/generic/text field in conversation.output."
  let rid ← fget params "raw_input_data"
  jsAssert rid "No raw input data found."
  let slack ← fget rid "slack"
  jsAssert slack "No Slack input data found."
  let convIn ← fget rid "conversation"
  jsAssert convIn "No Conversation input data found."
  let slackEvent ← fget slack "event"
  let payload ← fget slack "payload"
  let slackPayload ← payloadAnd payload
  let slackChannel ← resolveChannel slackEvent slackPayload
  jsAssert slackChannel "No Slack channel found in raw data."

/-- The base output object built inside `main` before
`insertConversationOutput` completes it. -/
def mkBase (channel url rid conv : JSValue) : JSValue :=
  .obj [("channel", channel), ("url", url), ("raw_input_data", rid),
    ("raw_output_data", .obj [("conversation", conv)])]

/-- The body of the Promise executor in `main` (source lines 30-45):
validate, build the base output, and complete it. -/
def mainBody (params : JSValue) : Except JSErr JSValue := do
  validateParameters params
  let channel ← getSlackChannel params
  let url ← getSlackPostUrl params
  let rid ← fget params "raw_input_data"
  let conv ← fget params "conversation"
  insertConversationOutput params (mkBase channel url rid conv)

/-- The settled state of a single-shot promise. -/
inductive PromiseResult where
  | resolved (v : JSValue) : PromiseResult
  | rejected (e : JSErr) : PromiseResult
deriving Repr

namespace Action

/-- `main(params)` of the source file: the state in which the returned
promise settles. The executor runs synchronously; if it reaches `resolve`,
the promise resolves with the built output, and if it throws first, the
Promise constructor catches the exception and rejects the promise with it.
(The name lives in a namespace because a bare top-level `main` is reserved
by Lean.) -/
def main (params : JSValue) : PromiseResult :=
  match mainBody params with
  | .ok v => .resolved v
  | .error e => .rejected e

end Action

/-- The act of calling `main`: per the ECMAScript Promise constructor the
call itself never throws — every exception of the executor is converted
into a rejection of the returned promise. -/
def mainCall (params : JSValue) : Except JSErr PromiseResult :=
  .ok (Action.main params)

/-- Whether an `Except` result of validation succeeded. -/
def vOk (params : JSValue) : Bool :=
  match validateParameters params with
  | .ok _ => true
  | .error _ => false

/-- Whether the promise resolved. -/
def isRes : PromiseResult → Bool
  | .resolved _ => true
  | .rejected _ => false

/-! ### Generic lemmas on `Except` and on object fields -/

theorem error_bind {E A B : Type} (e : E) (f : A → Except E B) :
    (Except.error e >>= f) = .error e := rfl

theorem ok_bind {E A B : Type} (a : A) (f : A → Except E B) :
    (Except.ok a >>= f) = f a := rfl

theorem except_bind_ok {E A B : Type} {x : Except E A} {f : A → Except E B} {b : B}
    (h : x >>= f = .ok b) : ∃ a, x = .ok a ∧ f a = .ok b := by
  cases x with
  | ok a => exact ⟨a, rfl, h⟩
  | error e => exact Except.noConfusion h

theorem except_bind_ok_iff {E A B : Type} (x : Except E A) (f : A → Except E B) (b : B) :
    x >>= f = .ok b ↔ ∃ a, x = .ok a ∧ f a = .ok b := by
  constructor
  · exact except_bind_ok
  · rintro ⟨a, rfl, h⟩
    exact h

theorem except_bind_error_iff {E A B : Type} (x : Except E A) (f : A → Except E B) (e : E) :
    x >>= f = .error e ↔ x = .error e ∨ ∃ a, x = .ok a ∧ f a = .error e := by
  cases x with
  | ok a =>
    constructor
    · intro h
      exact Or.inr ⟨a, rfl, h⟩
    · rintro (h | ⟨a', ha, h⟩)
      · exact Except.noConfusion h
      · cases ha
        exact h
  | error e' =>
    rw [error_bind]
    constructor
    · intro h
      cases h
      exact Or.inl rfl
    · rintro (h | ⟨a', ha, h⟩)
      · cases h
        rfl
      · exact Except.noConfusion ha

theorem fget_eq_getF {v : JSValue} (hv : truthy v = true) (key : String) :
    fget v key = .ok (getF v key) := by
  cases v <;> simp_all [fget, getF, truthy]

theorem lookupField_setFieldList (fs : List (String × JSValue)) (key k : String) (x : JSValue) :
    lookupField (setFieldList fs key x) k =
      if key = k then some x else lookupField fs k := by
  induction fs with
  | nil => by_cases h : key = k <;> simp [setFieldList, lookupField, h]
  | cons kv fs ih =>
    obtain ⟨k', v'⟩ := kv
    by_cases h1 : k' = key
    · subst h1
      by_cases h2 : k' = k <;> simp [setFieldList, lookupField, h2]
    · by_cases h2 : k' = k
      · subst h2
        have hne : ¬ key = k' := fun h => h1 h.symm
        simp [setFieldList, lookupField, h1, hne]
      · simp [setFieldList, lookupField, h1, h2, ih]

theorem getF_setField (gs : List (String × JSValue)) (key k : String) (x : JSValue) :
    getF (setField (.obj gs) key x) k = if key = k then x else getF (.obj gs) k := by
  by_cases h : key = k <;> simp [setField, getF, lookupField_setFieldList, h]

theorem hasField_setField (gs : List (String × JSValue)) (key k : String) (x : JSValue) :
    hasField (setField (.obj gs) key x) k = ((key = k : Bool) || hasField (.obj gs) k) := by
  by_cases h : key = k <;> simp [setField, hasField, lookupField_setFieldList, h]

/-- The binding a left-to-right overwrite of the fields `fs` leaves for
key `k`: the last one, as later `o[key] = x` assignments win. -/
def assocLast : List (String × JSValue) → String → Option JSValue
  | [], _ => none
  | (k', v) :: fs, k =>
    match assocLast fs k with
    | some w => some w
    | none => if k' = k then some v else none

theorem getF_copyFold (fs : List (String × JSValue)) (gs : List (String × JSValue)) (k : String) :
    getF ((fs).foldl (fun o kv => setField o kv.1 kv.2) (.obj gs)) k =
      (assocLast fs k).getD (getF (.obj gs) k) := by
  induction fs generalizing gs with
  | nil => simp [assocLast]
  | cons kv fs ih =>
    obtain ⟨k', v⟩ := kv
    simp only [List.foldl_cons]
    rw [show setField (JSValue.obj gs) (k', v).1 (k', v).2 = JSValue.obj (setFieldList gs k' v) from rfl]
    rw [ih (setFieldList gs k' v)]
    cases h : assocLast fs k with
    | some w => simp [assocLast, h]
    | none =>
      by_cases h2 : k' = k <;>
        simp [assocLast, h, h2, getF, lookupField_setFieldList]

theorem hasField_copyFold (fs : List (String × JSValue)) (gs : List (String × JSValue)) (k : String) :
    hasField ((fs).foldl (fun o kv => setField o kv.1 kv.2) (.obj gs)) k =
      ((assocLast fs k).isSome || hasField (.obj gs) k) := by
  induction fs generalizing gs with
  | nil => simp [assocLast]
  | cons kv fs ih =>
    obtain ⟨k', v⟩ := kv
    simp only [List.foldl_cons]
    rw [show setField (JSValue.obj gs) (k', v).1 (k', v).2 = JSValue.obj (setFieldList gs k' v) from rfl]
    rw [ih (setFieldList gs k' v)]
    cases h : assocLast fs k with
    | some w => simp [assocLast, h]
    | none =>
      by_cases h2 : k' = k <;>
        simp [assocLast, h, h2, hasField, lookupField_setFieldList]

theorem pure_ok {E A : Type} (a : A) : (pure a : Except E A) = .ok a := rfl

theorem jsAssert_ok {v : JSValue} {msg : String} {u : Unit}
    (h : jsAssert v msg = .ok u) : truthy v = true := by
  unfold jsAssert at h
  split at h
  · assumption
  · exact Except.noConfusion h

theorem mainBody_ok_inv {p res : JSValue} (h : mainBody p = .ok res) :
    ∃ ch url rid conv, validateParameters p = .ok () ∧ getSlackChannel p = .ok ch ∧
      getSlackPostUrl p = .ok url ∧ fget p "raw_input_data" = .ok rid ∧
      fget p "conversation" = .ok conv ∧
      insertConversationOutput p (mkBase ch url rid conv) = .ok res := by
  unfold mainBody at h
  obtain ⟨u, hval, h⟩ := except_bind_ok h
  obtain ⟨ch, hch, h⟩ := except_bind_ok h
  obtain ⟨url, hurl, h⟩ := except_bind_ok h
  obtain ⟨rid, hrid, h⟩ := except_bind_ok h
  obtain ⟨conv, hconv, h⟩ := except_bind_ok h
  cases u
  exact ⟨ch, url, rid, conv, hval, hch, hurl, hrid, hconv, h⟩

theorem main_resolved_inv {p res : JSValue} (h : Action.main p = .resolved res) :
    mainBody p = .ok res := by
  unfold Action.main at h
  cases hm : mainBody p with
  | ok v =>
    rw [hm] at h
    cases h
    rfl
  | error e =>
    rw [hm] at h
    exact PromiseResult.noConfusion h

/-! ### C1 -/

/-- C1 (amended): for every input that fails validation or payload
parsing, `main` does not raise the failure synchronously at call time —
the call returns normally and the promise it returns rejects with exactly
that failure (so no output is resolved for such inputs). -/
theorem c1_invalid_input_rejects_promise (p : JSValue) (e : JSErr)
    (h : validateParameters p = .error e) :
    mainCall p = .ok (.rejected e) := by
  unfold mainCall Action.main mainBody
  rw [h, error_bind]

/-- Witness for C1: the empty object input fails its first validation
assert, and the theorem instantiates to it. -/
theorem c1_invalid_input_rejects_promise_witness :
    validateParameters (JSValue.obj []) = .error (.assertionError "No conversation output.") ∧
    mainCall (JSValue.obj []) = .ok (.rejected (.assertionError "No conversation output.")) :=
  ⟨rfl, c1_invalid_input_rejects_promise (JSValue.obj []) _ rfl⟩

/-- C1 counterexample: on the empty-object input the call to `main`
returns normally (`mainCall` yields the promise, so nothing was raised
synchronously at call time) and the returned promise is rejected, not
resolved — contradicting "resolves exactly once and never rejects; the
failure is raised synchronously at call time". -/
theorem c1_counterexample :
    Action.main (JSValue.obj []) = .rejected (.assertionError "No conversation output.") ∧
    isRes (Action.main (JSValue.obj [])) = false ∧
    mainCall (JSValue.obj []) = .ok (.rejected (.assertionError "No conversation output.")) :=
  ⟨rfl, rfl, rfl⟩

/-! ### Concrete inputs used by witnesses and counterexamples -/

/-- Event-shape inbound data: a push notification from channel `C1`. -/
def ridEvent : JSValue :=
  .obj [("slack", .obj [("event", .obj [("channel", .str "C1")])]), ("conversation", .obj [])]

/-- A conversation result whose output carries a `slack` platform
override that also overrides `url`. -/
def convOverride : JSValue :=
  .obj [("output", .obj [("slack", .obj [("foo", .str "bar"), ("url", .str "u2")])])]

def pOverride : JSValue :=
  .obj [("conversation", convOverride), ("raw_input_data", ridEvent)]

/-! ### C3 -/

/-- C3: for every valid input whose conversation output carries a `slack`
sub-object, the result is the base `channel`/`url`/`raw_input_data`/
`raw_output_data` object with every key of the sub-object copied verbatim
on top (the sub-object's binding winning on collision, so `channel`/`url`
are overridden when defined there), and any key the sub-object does not
define — `ts`, `text`, `message` in particular — keeps the base's value,
i.e. stays absent: generic and text processing is skipped entirely. -/
theorem c3_slack_override (p ch url rid conv out : JSValue)
    (fs : List (String × JSValue)) (k : String)
    (hval : validateParameters p = .ok ())
    (hch : getSlackChannel p = .ok ch)
    (hurl : getSlackPostUrl p = .ok url)
    (hrid : fget p "raw_input_data" = .ok rid)
    (hconv : fget p "conversation" = .ok conv)
    (hout : fget conv "output" = .ok out)
    (hslack : fget out "slack" = .ok (.obj fs)) :
    Action.main p = .resolved (copyKeysOnto (.obj fs) (objectAssignEmpty (mkBase ch url rid conv))) ∧
    getF (copyKeysOnto (.obj fs) (objectAssignEmpty (mkBase ch url rid conv))) k =
      (assocLast fs k).getD (getF (mkBase ch url rid conv) k) ∧
    hasField (copyKeysOnto (.obj fs) (objectAssignEmpty (mkBase ch url rid conv))) k =
      ((assocLast fs k).isSome || hasField (mkBase ch url rid conv) k) := by
  refine ⟨?_, getF_copyFold fs _ k, hasField_copyFold fs _ k⟩
  unfold Action.main mainBody insertConversationOutput
  simp only [hval, hch, hurl, hrid, hconv, hout, hslack, ok_bind, pure_ok, truthy]
  rfl

/-- Witness for C3: the override input `pOverride`, at key `ts`; the
override has no `ts`/`message`/`text`, and the result ends with the
copied `foo` key while `url` is overridden to `u2`. -/
theorem c3_slack_override_witness :
    Action.main pOverride = .resolved (copyKeysOnto
      (.obj [("foo", .str "bar"), ("url", .str "u2")])
      (objectAssignEmpty (mkBase (.str "C1") (.str urlChatPost) ridEvent convOverride))) ∧
    getF (copyKeysOnto (.obj [("foo", .str "bar"), ("url", .str "u2")])
      (objectAssignEmpty (mkBase (.str "C1") (.str urlChatPost) ridEvent convOverride))) "ts" =
      (assocLast [("foo", .str "bar"), ("url", .str "u2")] "ts").getD
        (getF (mkBase (.str "C1") (.str urlChatPost) ridEvent convOverride) "ts") ∧
    hasField (copyKeysOnto (.obj [("foo", .str "bar"), ("url", .str "u2")])
      (objectAssignEmpty (mkBase (.str "C1") (.str urlChatPost) ridEvent convOverride))) "ts" =
      ((assocLast [("foo", .str "bar"), ("url", .str "u2")] "ts").isSome ||
        hasField (mkBase (.str "C1") (.str urlChatPost) ridEvent convOverride) "ts") :=
  c3_slack_override pOverride (.str "C1") (.str urlChatPost) ridEvent convOverride
    (.obj [("slack", .obj [("foo", .str "bar"), ("url", .str "u2")])])
    [("foo", .str "bar"), ("url", .str "u2")] "ts" rfl rfl rfl rfl rfl rfl rfl

/-! ### C5 -/

/-- The payload of an interactive callback from channel `C9` whose
original message had `ts` `123` and text `orig`. -/
def payloadStr5 : String :=
  "\x7b\"channel\":\x7b\"id\":\"C9\"\x7d,\"original_message\":\x7b\"ts\":\"123\",\"text\":\"orig\"\x7d\x7d"

def ridPayload5 : JSValue :=
  .obj [("slack", .obj [("payload", .str payloadStr5)]), ("conversation", .obj [])]

/-- Payload-shape input with conversation output text `["a", "b"]`. -/
def pPayload5 : JSValue :=
  .obj [("conversation", .obj [("output", .obj [("text", .arr [.str "a", .str "b"])])]),
    ("raw_input_data", ridPayload5)]

/-- The same conversation output arriving with the event shape. -/
def pEvent5 : JSValue :=
  .obj [("conversation", .obj [("output", .obj [("text", .arr [.str "a", .str "b"])])]),
    ("raw_input_data", ridEvent)]

/-- The value the payload-shape run of C5's scenario resolves with. -/
def resPayload5 : JSValue :=
  .obj [("channel", .str "C9"), ("url", .str urlChatUpdate),
    ("raw_input_data", ridPayload5),
    ("raw_output_data", .obj [("conversation",
      .obj [("output", .obj [("text", .arr [.str "a", .str "b"])])])]),
    ("ts", .str "123"), ("text", .str "orig"),
    ("attachments", .arr [.obj [("text", .str "a b")]])]

/-- C5 counterexample: on the claim's own scenario
(`output.text = ["a","b"]`, `original_message = {ts:"123", text:"orig"}`,
payload shape) the code does produce `ts:"123"` and `text:"orig"`, but
`attachments` is `[{text:"a b"}]` — the joined conversation text — and
not the claimed `[{text:"orig"}]`. -/
theorem c5_counterexample :
    Action.main pPayload5 = .resolved resPayload5 ∧
    getF resPayload5 "ts" = .str "123" ∧
    getF resPayload5 "text" = .str "orig" ∧
    getF resPayload5 "attachments" = .arr [.obj [("text", .str "a b")]] ∧
    getF resPayload5 "attachments" ≠ .arr [.obj [("text", .str "orig")]] := by
  refine ⟨rfl, rfl, rfl, rfl, ?_⟩
  rw [show getF resPayload5 "attachments" = .arr [.obj [("text", .str "a b")]] from rfl]
  simp

/-- C5 (amended): for every valid payload-shape input (event absent,
payload present) taking the plain-text fallback, with conversation output
text `["a","b"]` and a parsed payload whose original message has
`ts:"123"` and `text:"orig"`, the result carries `ts:"123"`, `text:"orig"`
(taken from the original message, not from `output.text`), and
`attachments` equal to `[{text:"a b"}]` — a single-element list wrapping
the conversation output's text joined with single spaces, not the
original message's text. The event shape instead sets `text` to the
joined output text and sets no attachments (final conjunct, on the
concrete event-shape input of the same scenario). -/
theorem c5_payload_text_fallback (p ch url rid conv out s g sl ev pl pay om : JSValue)
    (hval : validateParameters p = .ok ())
    (hch : getSlackChannel p = .ok ch)
    (hurl : getSlackPostUrl p = .ok url)
    (hrid : fget p "raw_input_data" = .ok rid)
    (hconv : fget p "conversation" = .ok conv)
    (hout : fget conv "output" = .ok out)
    (hs : fget out "slack" = .ok s) (hsF : truthy s = false)
    (hg : fget out "generic" = .ok g) (hgF : truthy g = false)
    (hsl : fget rid "slack" = .ok sl)
    (hev : fget sl "event" = .ok ev) (hevF : truthy ev = false)
    (hpl : fget sl "payload" = .ok pl) (hplT : truthy pl = true)
    (hparse : jsonParse pl = .ok pay) (hpayT : truthy pay = true)
    (hom : fget pay "original_message" = .ok om) (homT : truthy om = true)
    (homts : getF om "ts" = .str "123") (homtx : getF om "text" = .str "orig")
    (htxt : fget out "text" = .ok (.arr [.str "a", .str "b"])) :
    Action.main p = .resolved (setField (setField (setField (mkBase ch url rid conv)
        "ts" (.str "123")) "text" (.str "orig"))
        "attachments" (.arr [.obj [("text", .str "a b")]])) ∧
    getF (setField (setField (setField (mkBase ch url rid conv)
        "ts" (.str "123")) "text" (.str "orig"))
        "attachments" (.arr [.obj [("text", .str "a b")]])) "ts" = .str "123" ∧
    getF (setField (setField (setField (mkBase ch url rid conv)
        "ts" (.str "123")) "text" (.str "orig"))
        "attachments" (.arr [.obj [("text", .str "a b")]])) "text" = .str "orig" ∧
    getF (setField (setField (setField (mkBase ch url rid conv)
        "ts" (.str "123")) "text" (.str "orig"))
        "attachments" (.arr [.obj [("text", .str "a b")]])) "attachments" =
      .arr [.obj [("text", .str "a b")]] ∧
    Action.main pEvent5 = .resolved (.obj [("channel", .str "C1"),
      ("url", .str urlChatPost), ("raw_input_data", ridEvent),
      ("raw_output_data", .obj [("conversation",
        .obj [("output", .obj [("text", .arr [.str "a", .str "b"])])])]),
      ("text", .str "a b")]) := by
  have hpa : payloadAnd pl = .ok pay := by
    unfold payloadAnd
    rw [hplT]
    simpa using hparse
  have hfomts : fget om "ts" = .ok (.str "123") := by
    rw [fget_eq_getF homT, homts]
  have hfomtx : fget om "text" = .ok (.str "orig") := by
    rw [fget_eq_getF homT, homtx]
  have hts : getOriginalMessageTimestamp p = .ok (.str "123") := by
    unfold getOriginalMessageTimestamp
    simp [hrid, hsl, hev, hpl, hpa, ok_bind, hevF, hpayT, hom, homT, hfomts]
  have hjoin : jsJoin (.arr [.str "a", .str "b"]) " " = .ok (.str "a b") := rfl
  have htext : getOutputText p = .ok (.str "orig") := by
    unfold getOutputText
    simp [hrid, hsl, hev, hpl, hpa, ok_bind, hevF, hpayT, hom, homT, hfomtx]
  have hatt : getAttachments p = .ok (.arr [.obj [("text", .str "a b")]]) := by
    unfold getAttachments
    simp [hrid, hsl, hev, hevF, hconv, hout, htxt, hjoin, ok_bind]
  refine ⟨?_, rfl, rfl, rfl, rfl⟩
  unfold Action.main mainBody insertConversationOutput
  simp only [hval, hch, hurl, hrid, hconv, hout, hs, hsF, hts, hg, hgF, htext, hatt,
    ok_bind, pure_ok]
  simp [truthy]
  rfl

/-- Witness for C5: the concrete payload-shape input `pPayload5`
instantiates every hypothesis of the amended theorem. -/
theorem c5_payload_text_fallback_witness :
    Action.main pPayload5 = .resolved (setField (setField (setField
        (mkBase (.str "C9") (.str urlChatUpdate) ridPayload5
          (.obj [("output", .obj [("text", .arr [.str "a", .str "b"])])]))
        "ts" (.str "123")) "text" (.str "orig"))
        "attachments" (.arr [.obj [("text", .str "a b")]])) := by
  have h := c5_payload_text_fallback pPayload5 (.str "C9") (.str urlChatUpdate)
    ridPayload5 (.obj [("output", .obj [("text", .arr [.str "a", .str "b"])])])
    (.obj [("text", .arr [.str "a", .str "b"])]) .undef .undef
    (.obj [("payload", .str payloadStr5)]) .undef (.str payloadStr5)
    (.obj [("channel", .obj [("id", .str "C9")]),
      ("original_message", .obj [("ts", .str "123"), ("text", .str "orig")])])
    (.obj [("ts", .str "123"), ("text", .str "orig")])
    rfl rfl rfl rfl rfl rfl rfl rfl rfl rfl rfl rfl rfl rfl rfl rfl rfl rfl rfl rfl rfl rfl
  exact h.1

/-! ### C6 -/

theorem getF_of_falsy {x : JSValue} (h : truthy x = false) (k : String) :
    getF x k = .undef := by
  cases x <;> simp_all [truthy, getF]

/-- C6: a button value is normalized to `.ok r` exactly when either the
supplied value is a plain string (then `r` is that string, unchanged), or
it is a structured (object-like) value whose `input.text` is a non-empty
string (then `r` is that string); every other value fails validation, so
every normalized button value in the output is a string. -/
theorem c6_option_value_normalization (v r : JSValue) :
    getNormalizedOptionsValue v = .ok r ↔
      ((∃ s, v = .str s ∧ r = v) ∨
       (instanceOfObject v = true ∧
        ∃ t, ¬ t = "" ∧ getF (getF v "input") "text" = .str t ∧ r = .str t)) := by
  have hmain : ∀ (w : JSValue), instanceOfObject w = true →
      (getNormalizedOptionsValue w = .ok r ↔
        ∃ t, ¬ t = "" ∧ getF (getF w "input") "text" = .str t ∧ r = .str t) := by
    intro w hw
    have hfw : fget w "input" = .ok (getF w "input") := by
      cases w <;> simp_all [fget, getF, instanceOfObject]
    unfold getNormalizedOptionsValue
    rw [hw]
    by_cases hti : truthy (getF w "input") = true
    · have hft : fget (getF w "input") "text" = .ok (getF (getF w "input") "text") :=
        fget_eq_getF hti "text"
      by_cases htt : truthy (getF (getF w "input") "text") = true
      · cases hval : getF (getF w "input") "text" with
        | str t =>
          rw [hval] at htt
          have htne : ¬ t = "" := by simpa [truthy] using htt
          simp only [hfw, ok_bind, hti, hft, hval, htt, jsTypeof, pure_ok,
            eq_self_iff_true, if_true]
          constructor
          · intro h
            cases h
            exact ⟨t, htne, rfl, rfl⟩
          · rintro ⟨t', ht'ne, heq, rfl⟩
            cases heq
            rfl
        | undef =>
          rw [hval] at htt
          simp [truthy] at htt
        | null =>
          rw [hval] at htt
          simp [truthy] at htt
        | bool b =>
          rw [hval] at htt
          simp only [hfw, ok_bind, hti, hft, hval, htt, jsTypeof, pure_ok,
            eq_self_iff_true, if_true]
          simp
        | num n =>
          rw [hval] at htt
          simp only [hfw, ok_bind, hti, hft, hval, htt, jsTypeof, pure_ok,
            eq_self_iff_true, if_true]
          simp
        | arr xs =>
          rw [hval] at htt
          simp only [hfw, ok_bind, hti, hft, hval, htt, jsTypeof, pure_ok,
            eq_self_iff_true, if_true]
          simp
        | obj gs =>
          rw [hval] at htt
          simp only [hfw, ok_bind, hti, hft, hval, htt, jsTypeof, pure_ok,
            eq_self_iff_true, if_true]
          simp
      · have htf : truthy (getF (getF w "input") "text") = false := by simpa using htt
        apply iff_of_false
        · simp only [hfw, ok_bind, hti, hft, htf, pure_ok, eq_self_iff_true, if_true]
          simp [error_bind]
        · rintro ⟨t, htne, hvt, rfl⟩
          rw [hvt] at htf
          simp [truthy] at htf
          exact htne htf
    · have hti' : truthy (getF w "input") = false := by simpa using hti
      apply iff_of_false
      · simp only [hfw, ok_bind, hti', pure_ok, eq_self_iff_true, if_true]
        simp [error_bind]
      · rintro ⟨t, htne, hvt, rfl⟩
        rw [getF_of_falsy hti' "text"] at hvt
        exact JSValue.noConfusion hvt
  cases v with
  | str s => simp [getNormalizedOptionsValue, instanceOfObject, jsTypeof, pure_ok, ok_bind, eq_comm]
  | obj fs =>
    rw [hmain (.obj fs) rfl]
    simp [instanceOfObject]
  | arr xs =>
    rw [hmain (.arr xs) rfl]
    simp [instanceOfObject]
  | undef => simp [getNormalizedOptionsValue, instanceOfObject, jsTypeof, pure_ok, ok_bind]
  | null => simp [getNormalizedOptionsValue, instanceOfObject, jsTypeof, pure_ok, ok_bind]
  | bool b => simp [getNormalizedOptionsValue, instanceOfObject, jsTypeof, pure_ok, ok_bind]
  | num n => simp [getNormalizedOptionsValue, instanceOfObject, jsTypeof, pure_ok, ok_bind]

/-! ### C2 -/

theorem fget_ok {v : JSValue} {k : String} {x : JSValue} (h : fget v k = .ok x) :
    notNullish v = true ∧ x = getF v k := by
  cases v <;> simp_all [fget, getF, notNullish]

theorem fget_eq_getF_notNullish {v : JSValue} (hv : notNullish v = true) (k : String) :
    fget v k = .ok (getF v k) := by
  cases v <;> simp_all [fget, getF, notNullish]

theorem jsAssert_pos {v : JSValue} (h : truthy v = true) (msg : String) :
    jsAssert v msg = .ok () := by
  simp [jsAssert, h]

/-- Whether an `Except`-valued computation succeeded with a truthy value. -/
def okTruthy (x : Except JSErr JSValue) : Bool :=
  match x with
  | .ok v => truthy v
  | .error _ => false

/-- The conditions the spec's Step 1 enumerates, stated directly over the
input: the conversation object, its output, at least one of
`slack`/`generic`/`text` on the output, the raw input data with its
`slack` and `conversation` members must all be present (truthy; the
outermost access must not throw), and a destination channel id must
resolve to a truthy value (`getSlackChannel`, which also exercises the
payload parse). -/
def requiredConditions (p : JSValue) : Bool :=
  notNullish p &&
  truthy (getF p "conversation") &&
  truthy (getF (getF p "conversation") "output") &&
  (truthy (getF (getF (getF p "conversation") "output") "slack") ||
   truthy (getF (getF (getF p "conversation") "output") "generic") ||
   truthy (getF (getF (getF p "conversation") "output") "text")) &&
  truthy (getF p "raw_input_data") &&
  truthy (getF (getF p "raw_input_data") "slack") &&
  truthy (getF (getF p "raw_input_data") "conversation") &&
  okTruthy (getSlackChannel p)

theorem orChain_exists {out : JSValue} (houtT : truthy out = true)
    (hdisj : (truthy (getF out "slack") || truthy (getF out "generic") ||
      truthy (getF out "text")) = true) :
    ∃ ov1 ov2, jsOrE (getF out "slack") (fget out "generic") = .ok ov1 ∧
      jsOrE ov1 (fget out "text") = .ok ov2 ∧ truthy ov2 = true := by
  by_cases hA : truthy (getF out "slack") = true
  · exact ⟨getF out "slack", getF out "slack",
      by simp [jsOrE, hA, pure_ok], by simp [jsOrE, hA, pure_ok], hA⟩
  · have hA' : truthy (getF out "slack") = false := by simpa using hA
    by_cases hB : truthy (getF out "generic") = true
    · exact ⟨getF out "generic", getF out "generic",
        by simp [jsOrE, hA', fget_eq_getF houtT],
        by simp [jsOrE, hB, pure_ok], hB⟩
    · have hB' : truthy (getF out "generic") = false := by simpa using hB
      have hC : truthy (getF out "text") = true := by
        simpa [hA', hB'] using hdisj
      exact ⟨getF out "generic", getF out "text",
        by simp [jsOrE, hA', fget_eq_getF houtT],
        by simp [jsOrE, hB', fget_eq_getF houtT], hC⟩

/-- C2: validation succeeds exactly when all the required pieces are
present — the conversation object, its `output`, at least one of
`slack`/`generic`/`text` on it, the raw input data with `slack` and
`conversation` members, and a resolvable destination channel id — so for
every input missing any of them the call fails validation; and whenever
validation fails, the promise does not resolve, i.e. no output is built
(second conjunct). -/
theorem c2_validation_characterization (p : JSValue) :
    (validateParameters p = .ok () ↔ requiredConditions p = true) ∧
    (vOk p || !(isRes (Action.main p))) = true := by
  constructor
  · constructor
    · intro h
      unfold validateParameters at h
      obtain ⟨conv, hconv, h⟩ := except_bind_ok h
      obtain ⟨u1, ha1, h⟩ := except_bind_ok h
      have hconvT := jsAssert_ok ha1
      obtain ⟨out, hout, h⟩ := except_bind_ok h
      obtain ⟨u2, ha2, h⟩ := except_bind_ok h
      have houtT := jsAssert_ok ha2
      obtain ⟨s, hs, h⟩ := except_bind_ok h
      obtain ⟨ov1, hov1, h⟩ := except_bind_ok h
      obtain ⟨ov2, hov2, h⟩ := except_bind_ok h
      obtain ⟨u3, ha3, h⟩ := except_bind_ok h
      have hov2T := jsAssert_ok ha3
      obtain ⟨rid, hrid, h⟩ := except_bind_ok h
      obtain ⟨u4, ha4, h⟩ := except_bind_ok h
      have hridT := jsAssert_ok ha4
      obtain ⟨sl, hsl, h⟩ := except_bind_ok h
      obtain ⟨u5, ha5, h⟩ := except_bind_ok h
      have hslT := jsAssert_ok ha5
      obtain ⟨ci, hci, h⟩ := except_bind_ok h
      obtain ⟨u6, ha6, h⟩ := except_bind_ok h
      have hciT := jsAssert_ok ha6
      obtain ⟨ev, hev, h⟩ := except_bind_ok h
      obtain ⟨pl, hpl, h⟩ := except_bind_ok h
      obtain ⟨sp, hsp, h⟩ := except_bind_ok h
      obtain ⟨chv, hchv, h⟩ := except_bind_ok h
      have hchT := jsAssert_ok h
      have hgsc : getSlackChannel p = .ok chv := by
        unfold getSlackChannel
        rw [hrid, ok_bind, hsl, ok_bind, hev, ok_bind, hpl, ok_bind, hsp, ok_bind]
        exact hchv
      obtain ⟨hpN, hconvV⟩ := fget_ok hconv
      obtain ⟨hconvN, houtV⟩ := fget_ok hout
      obtain ⟨hpN2, hridV⟩ := fget_ok hrid
      obtain ⟨hridN, hslV⟩ := fget_ok hsl
      obtain ⟨hridN2, hciV⟩ := fget_ok hci
      have hsv : s = getF out "slack" :=
        Except.ok.inj (hs.symm.trans (fget_eq_getF houtT "slack"))
      have hdisj : (truthy (getF out "slack") || truthy (getF out "generic") ||
          truthy (getF out "text")) = true := by
        unfold jsOrE at hov1 hov2
        by_cases hts : truthy s = true
        · rw [← hsv]
          simp [hts]
        · rw [if_neg hts] at hov1
          have hgv : ov1 = getF out "generic" :=
            Except.ok.inj (hov1.symm.trans (fget_eq_getF houtT "generic"))
          by_cases hto : truthy ov1 = true
          · rw [hgv] at hto
            simp [hto]
          · rw [if_neg hto] at hov2
            have htv : ov2 = getF out "text" :=
              Except.ok.inj (hov2.symm.trans (fget_eq_getF houtT "text"))
            rw [htv] at hov2T
            simp [hov2T]
      unfold requiredConditions okTruthy
      rw [hgsc, ← hconvV, ← houtV, ← hridV]
      simp [hpN, hconvT, houtT, hridT, hchT, hdisj, ← hslV, hslT, ← hciV, hciT]
    · intro h
      unfold requiredConditions at h
      simp only [Bool.and_eq_true] at h
      obtain ⟨⟨⟨⟨⟨⟨⟨hpN, hconvT⟩, houtT⟩, hdisj⟩, hridT⟩, hslT⟩, hciT⟩, hZ⟩ := h
      have hconv : fget p "conversation" = .ok (getF p "conversation") :=
        fget_eq_getF_notNullish hpN "conversation"
      have hout : fget (getF p "conversation") "output" =
          .ok (getF (getF p "conversation") "output") :=
        fget_eq_getF hconvT "output"
      have hrid : fget p "raw_input_data" = .ok (getF p "raw_input_data") :=
        fget_eq_getF_notNullish hpN "raw_input_data"
      have hsl : fget (getF p "raw_input_data") "slack" =
          .ok (getF (getF p "raw_input_data") "slack") :=
        fget_eq_getF hridT "slack"
      have hci : fget (getF p "raw_input_data") "conversation" =
          .ok (getF (getF p "raw_input_data") "conversation") :=
        fget_eq_getF hridT "conversation"
      have hs : fget (getF (getF p "conversation") "output") "slack" =
          .ok (getF (getF (getF p "conversation") "output") "slack") :=
        fget_eq_getF houtT "slack"
      cases hgsc : getSlackChannel p with
      | error e =>
        rw [hgsc] at hZ
        simp [okTruthy] at hZ
      | ok ch =>
      rw [hgsc] at hZ
      simp only [okTruthy] at hZ
      unfold getSlackChannel at hgsc
      obtain ⟨rid2, hrid2, hg1⟩ := except_bind_ok hgsc
      obtain ⟨sl2, hsl2, hg2⟩ := except_bind_ok hg1
      obtain ⟨ev, hev, hg3⟩ := except_bind_ok hg2
      obtain ⟨pl, hpl, hg4⟩ := except_bind_ok hg3
      obtain ⟨sp, hsp, hres⟩ := except_bind_ok hg4
      have hrideq : rid2 = getF p "raw_input_data" := Except.ok.inj (hrid2.symm.trans hrid)
      subst hrideq
      have hsleq : sl2 = getF (getF p "raw_input_data") "slack" :=
        Except.ok.inj (hsl2.symm.trans hsl)
      subst hsleq
      obtain ⟨ov1, ov2, h1, h2, hT⟩ := orChain_exists houtT hdisj
      unfold validateParameters
      rw [hconv, ok_bind, jsAssert_pos hconvT, ok_bind, hout, ok_bind,
        jsAssert_pos houtT, ok_bind, hs, ok_bind, h1, ok_bind, h2, ok_bind,
        jsAssert_pos hT, ok_bind, hrid, ok_bind, jsAssert_pos hridT, ok_bind,
        hsl, ok_bind, jsAssert_pos hslT, ok_bind, hci, ok_bind, jsAssert_pos hciT,
        ok_bind, hev, ok_bind, hpl, ok_bind, hsp, ok_bind]
      rw [hres, ok_bind, jsAssert_pos hZ]
  · unfold vOk Action.main mainBody
    cases hv : validateParameters p with
    | ok u => simp [isRes]
    | error e => simp [error_bind, isRes]

/-! ### C4 -/

/-- The timestamp attachment `if (ts) slackOutput.ts = ts` (source lines
95-98) applied to an output object. -/
def withTs (o ts : JSValue) : JSValue :=
  if truthy ts then setField o "ts" ts else o

/-- The message list stated as the spec states it: map each generic
element through its generator and collect the results in input order,
elements with unrecognized response types contributing no entry. -/
def specMessages : List JSValue → Except JSErr (List JSValue)
  | [] => .ok []
  | e :: es => do
    let m ← slackMessageOf e
    let rest ← specMessages es
    match m with
    | some x => pure (x :: rest)
    | none => pure rest

theorem buildMessagesAux_spec (es : List JSValue) (acc : List JSValue) :
    buildMessagesAux acc es =
      (match specMessages es with
       | .ok rest => .ok (acc ++ rest)
       | .error e => .error e) := by
  induction es generalizing acc with
  | nil => simp [buildMessagesAux, specMessages]
  | cons e es ih =>
    unfold buildMessagesAux specMessages
    cases hm : slackMessageOf e with
    | error err => simp [error_bind]
    | ok m =>
      cases m with
      | some msg =>
        simp only [ok_bind]
        rw [ih]
        cases hr : specMessages es with
        | error err => simp [error_bind]
        | ok rest => simp [ok_bind, pure_ok]
      | none =>
        simp only [ok_bind]
        rw [ih]
        cases hr : specMessages es with
        | error err => simp [error_bind]
        | ok rest => simp [ok_bind, pure_ok]

theorem buildMessages_eq_specMessages (es : List JSValue) :
    buildMessages es = specMessages es := by
  unfold buildMessages
  rw [buildMessagesAux_spec]
  cases specMessages es <;> simp

/-- C4: on a valid input with no slack override and a truthy `generic`
field, the result is the timestamped base with a `message` list built by
the forEach loop (first conjunct); that loop equals the spec's in-order
mapping with unrecognized types dropped (second conjunct); a single
non-array generic value is treated as a one-element list (third/fourth
conjuncts); and the per-type generators produce exactly the claimed
sub-messages: image, audio, video, text, pause (unchanged element),
option (buttons with normalized values), and unrecognized response types
produce no entry (remaining conjuncts). -/
theorem c4_generic_elements (p ch url rid conv out s g ts : JSValue)
    (gfs prest urest : List (String × JSValue)) (es msgs : List JSValue)
    (tt dd ss mtt mss tx optTitle lab val nv : JSValue) (uk : String)
    (hval : validateParameters p = .ok ())
    (hch : getSlackChannel p = .ok ch)
    (hurl : getSlackPostUrl p = .ok url)
    (hrid : fget p "raw_input_data" = .ok rid)
    (hconv : fget p "conversation" = .ok conv)
    (hout : fget conv "output" = .ok out)
    (hs : fget out "slack" = .ok s) (hsF : truthy s = false)
    (hts : getOriginalMessageTimestamp p = .ok ts)
    (hg : fget out "generic" = .ok g) (hgT : truthy g = true)
    (hmsgs : buildMessages (asGenericList g) = .ok msgs)
    (hnv : getNormalizedOptionsValue val = .ok nv)
    (huk : ¬ uk ∈ (["image", "audio", "video", "option", "pause", "text"] : List String)) :
    Action.main p = .resolved (setField (withTs (mkBase ch url rid conv) ts)
      "message" (.arr msgs)) ∧
    buildMessages es = specMessages es ∧
    asGenericList (.arr es) = es ∧
    asGenericList (.obj gfs) = [.obj gfs] ∧
    slackMessageOf (.obj [("response_type", .str "image"), ("title", tt),
      ("description", dd), ("source", ss)]) =
      .ok (some (.obj [("attachments",
        .arr [.obj [("title", tt), ("pretext", dd), ("image_url", ss)]])])) ∧
    slackMessageOf (.obj [("response_type", .str "audio"), ("title", mtt), ("source", mss)]) =
      .ok (some (.obj [("text", .str ("<" ++ jsToString mss ++ "|" ++ jsToString mtt ++ ">")),
        ("unfurl_links", .bool true), ("unfurl_media", .bool true)])) ∧
    slackMessageOf (.obj [("response_type", .str "video"), ("title", mtt), ("source", mss)]) =
      .ok (some (.obj [("text", .str ("<" ++ jsToString mss ++ "|" ++ jsToString mtt ++ ">")),
        ("unfurl_links", .bool true), ("unfurl_media", .bool true)])) ∧
    slackMessageOf (.obj [("response_type", .str "text"), ("text", tx)]) =
      .ok (some (.obj [("text", tx)])) ∧
    slackMessageOf (.obj (("response_type", .str "pause") :: prest)) =
      .ok (some (.obj (("response_type", .str "pause") :: prest))) ∧
    slackMessageOf (.obj [("response_type", .str "option"), ("title", optTitle),
      ("options", .arr [.obj [("label", lab), ("value", val)]])]) =
      .ok (some (.obj [("attachments", .arr [.obj [("text", optTitle),
        ("callback_id", optTitle), ("actions", .arr [.obj [("name", lab),
        ("type", .str "button"), ("text", lab), ("value", nv)]])]])])) ∧
    slackMessageOf (.obj (("response_type", .str uk) :: urest)) = .ok none := by
  refine ⟨?_, buildMessages_eq_specMessages es, rfl, rfl, rfl, rfl, rfl, rfl, rfl, ?_, ?_⟩
  · have hoae : objectAssignEmpty (mkBase ch url rid conv) = mkBase ch url rid conv := rfl
    unfold Action.main mainBody insertConversationOutput
    simp only [hval, hch, hurl, hrid, hconv, hout, hs, hsF, hts, hg, hgT, hmsgs,
      ok_bind, pure_ok, hoae]
    simp [withTs]
  · simp [slackMessageOf, generateSlackOptionsData, fget, lookupField, ok_bind, pure_ok,
      hnv, List.mapM, List.mapM.loop]
  · have h1 : ¬ uk = "image" := fun h => huk (by simp [h])
    have h2 : ¬ uk = "audio" := fun h => huk (by simp [h])
    have h3 : ¬ uk = "video" := fun h => huk (by simp [h])
    have h4 : ¬ uk = "option" := fun h => huk (by simp [h])
    have h5 : ¬ uk = "pause" := fun h => huk (by simp [h])
    have h6 : ¬ uk = "text" := fun h => huk (by simp [h])
    simp [slackMessageOf, fget, lookupField, h1, h2, h3, h4, h5, h6, pure_ok, ok_bind]

/-- Conversation result with a two-element generic list: a text element
and an element with an unrecognized response type. -/
def convGeneric : JSValue :=
  .obj [("output", .obj [("generic", .arr [
    .obj [("response_type", .str "text"), ("text", .str "hi")],
    .obj [("response_type", .str "unknown")]])])]

def pGeneric : JSValue :=
  .obj [("conversation", convGeneric), ("raw_input_data", ridEvent)]

/-- Witness for C4: on the concrete generic input the unknown element is
dropped and the result's message list is `[{text:"hi"}]`. -/
theorem c4_generic_elements_witness :
    Action.main pGeneric = .resolved (setField
      (withTs (mkBase (.str "C1") (.str urlChatPost) ridEvent convGeneric) JSValue.undef)
      "message" (.arr [.obj [("text", .str "hi")]])) :=
  (c4_generic_elements pGeneric (.str "C1") (.str urlChatPost) ridEvent convGeneric
    (.obj [("generic", .arr [
      .obj [("response_type", .str "text"), ("text", .str "hi")],
      .obj [("response_type", .str "unknown")]])])
    .undef
    (.arr [.obj [("response_type", .str "text"), ("text", .str "hi")],
      .obj [("response_type", .str "unknown")]])
    .undef
    [("response_type", .str "text")] [] [] []
    [.obj [("text", .str "hi")]]
    (.str "T") (.str "D") (.str "S") (.str "MT") (.str "MS") (.str "hi")
    (.str "OT") (.str "Yes") (.str "y") (.str "y") "unknown"
    rfl rfl rfl rfl rfl rfl rfl rfl rfl rfl rfl rfl rfl (by simp)).1

/-! ### C7 -/

/-- The timestamp the spec's Step 4 assigns to the event shape: the
nested message's timestamp when the nested message carries a truthy one,
else the event's own timestamp. -/
def eventTs (ev : JSValue) : JSValue :=
  if truthy (getF ev "message") && truthy (getF (getF ev "message") "ts")
  then getF (getF ev "message") "ts"
  else getF ev "ts"

/-- The timestamp the spec's Step 4 assigns to the payload shape:
`original_message.ts` reached through the short-circuit chain (the chain's
falsy intermediate value when it stops early). -/
def payloadTs (sp : JSValue) : JSValue :=
  if truthy sp then
    (if truthy (getF sp "original_message") then getF (getF sp "original_message") "ts"
     else getF sp "original_message")
  else sp

/-- C7: for a valid input resolving on the generic or plain-text path,
the result carries a `ts` field exactly when the resolved timestamp is
truthy (no field at all is added otherwise), with that value; and the
resolved timestamp is the event shape's nested-message-or-event timestamp
when an event is present, else the parsed payload's
`original_message.ts` chain. -/
theorem c7_timestamp_resolution (p res conv out s g rid sl ev pl sp ts : JSValue)
    (hres : Action.main p = .resolved res)
    (hconv : fget p "conversation" = .ok conv)
    (hout : fget conv "output" = .ok out)
    (hs : fget out "slack" = .ok s) (hsF : truthy s = false)
    (hg : fget out "generic" = .ok g)
    (hrid : fget p "raw_input_data" = .ok rid)
    (hsl : fget rid "slack" = .ok sl)
    (hev : fget sl "event" = .ok ev)
    (hpl : fget sl "payload" = .ok pl)
    (hsp : payloadAnd pl = .ok sp)
    (hts : getOriginalMessageTimestamp p = .ok ts) :
    hasField res "ts" = truthy ts ∧
    getF res "ts" = (if truthy ts then ts else JSValue.undef) ∧
    (if truthy ev = true then ts = eventTs ev else ts = payloadTs sp) := by
  have hB : (if truthy ev = true then ts = eventTs ev else ts = payloadTs sp) := by
    unfold getOriginalMessageTimestamp at hts
    rw [hrid, ok_bind, hsl, ok_bind, hev, ok_bind, hpl, ok_bind, hsp, ok_bind] at hts
    by_cases hevT : truthy ev = true
    · rw [if_pos hevT]
      rw [if_pos hevT] at hts
      rw [fget_eq_getF hevT "message", ok_bind] at hts
      by_cases hm : truthy (getF ev "message") = true
      · rw [show jsAndE (getF ev "message") (fget (getF ev "message") "ts") =
            .ok (getF (getF ev "message") "ts") from by
          simp [jsAndE, hm, fget_eq_getF hm], ok_bind] at hts
        by_cases hmts : truthy (getF (getF ev "message") "ts") = true
        · rw [if_pos hmts, pure_ok] at hts
          unfold eventTs
          rw [if_pos (by simp [hm, hmts])]
          exact (Except.ok.inj hts).symm
        · rw [if_neg hmts, fget_eq_getF hevT "ts"] at hts
          unfold eventTs
          rw [if_neg (by simp [hmts])]
          exact (Except.ok.inj hts).symm
      · have hm' : truthy (getF ev "message") = false := by simpa using hm
        rw [show jsAndE (getF ev "message") (fget (getF ev "message") "ts") =
            .ok (getF ev "message") from by simp [jsAndE, hm', pure_ok], ok_bind] at hts
        rw [if_neg (by simp [hm']), fget_eq_getF hevT "ts"] at hts
        unfold eventTs
        rw [if_neg (by simp [hm'])]
        exact (Except.ok.inj hts).symm
    · rw [if_neg hevT]
      rw [if_neg hevT] at hts
      by_cases hspT : truthy sp = true
      · rw [if_pos hspT, fget_eq_getF hspT "original_message", ok_bind] at hts
        by_cases hom : truthy (getF sp "original_message") = true
        · rw [if_pos hom, fget_eq_getF hom "ts"] at hts
          unfold payloadTs
          rw [if_pos hspT, if_pos hom]
          exact (Except.ok.inj hts).symm
        · rw [if_neg hom, pure_ok] at hts
          unfold payloadTs
          rw [if_pos hspT, if_neg hom]
          exact (Except.ok.inj hts).symm
      · rw [if_neg hspT, pure_ok] at hts
        unfold payloadTs
        rw [if_neg hspT]
        exact (Except.ok.inj hts).symm
  obtain ⟨ch, url, rid2, conv2, hval, hch, hurl, hrid2, hconv2, hins⟩ :=
    mainBody_ok_inv (main_resolved_inv hres)
  have hrideq : rid2 = rid := Except.ok.inj (hrid2.symm.trans hrid)
  subst hrideq
  have hconveq : conv2 = conv := Except.ok.inj (hconv2.symm.trans hconv)
  subst hconveq
  unfold insertConversationOutput at hins
  rw [hconv, ok_bind, hout, ok_bind, hs, ok_bind, if_neg (by simp [hsF]),
    hts, ok_bind, hg, ok_bind] at hins
  by_cases hgT : truthy g = true
  · rw [if_pos hgT] at hins
    obtain ⟨msgs, hmsgs, hins⟩ := except_bind_ok hins
    rw [pure_ok] at hins
    have hresv := (Except.ok.inj hins).symm
    subst hresv
    refine ⟨?_, ?_, hB⟩ <;>
      cases hts' : truthy ts <;>
        simp [withTs, hts', mkBase, objectAssignEmpty, ownFields, setField, setFieldList,
          hasField, getF, lookupField]
  · rw [if_neg hgT] at hins
    obtain ⟨tv, htv, hins⟩ := except_bind_ok hins
    obtain ⟨av, hav, hins⟩ := except_bind_ok hins
    rw [pure_ok] at hins
    have hresv := (Except.ok.inj hins).symm
    subst hresv
    refine ⟨?_, ?_, hB⟩ <;>
      cases hts' : truthy ts <;>
        by_cases htvT : truthy tv = true <;>
          by_cases havT : truthy av = true <;>
            simp [withTs, hts', htvT, havT, mkBase, objectAssignEmpty, ownFields, setField,
              setFieldList, hasField, getF, lookupField]

/-- The parsed form of `payloadStr5`. -/
def payloadVal5 : JSValue :=
  .obj [("channel", .obj [("id", .str "C9")]),
    ("original_message", .obj [("ts", .str "123"), ("text", .str "orig")])]

/-- Witness for C7: the payload-shape input `pPayload5` resolves with
`ts = "123"` taken from the parsed payload's original message. -/
theorem c7_timestamp_resolution_witness :
    hasField resPayload5 "ts" = truthy (.str "123") ∧
    getF resPayload5 "ts" = (if truthy (.str "123") then .str "123" else JSValue.undef) ∧
    (if truthy JSValue.undef = true then JSValue.str "123" = eventTs JSValue.undef
     else JSValue.str "123" = payloadTs payloadVal5) :=
  c7_timestamp_resolution pPayload5 resPayload5
    (.obj [("output", .obj [("text", .arr [.str "a", .str "b"])])])
    (.obj [("text", .arr [.str "a", .str "b"])])
    .undef .undef ridPayload5 (.obj [("payload", .str payloadStr5)])
    .undef (.str payloadStr5) payloadVal5 (.str "123")
    rfl rfl rfl rfl rfl rfl rfl rfl rfl rfl rfl rfl

/-! ### C8 -/

theorem validate_channel_truthy {p ch : JSValue} (hval : validateParameters p = .ok ())
    (hch : getSlackChannel p = .ok ch) : truthy ch = true := by
  unfold validateParameters at hval
  obtain ⟨conv, hconv, h⟩ := except_bind_ok hval
  obtain ⟨u1, ha1, h⟩ := except_bind_ok h
  obtain ⟨out, hout, h⟩ := except_bind_ok h
  obtain ⟨u2, ha2, h⟩ := except_bind_ok h
  obtain ⟨s, hs, h⟩ := except_bind_ok h
  obtain ⟨ov1, hov1, h⟩ := except_bind_ok h
  obtain ⟨ov2, hov2, h⟩ := except_bind_ok h
  obtain ⟨u3, ha3, h⟩ := except_bind_ok h
  obtain ⟨rid, hrid, h⟩ := except_bind_ok h
  obtain ⟨u4, ha4, h⟩ := except_bind_ok h
  obtain ⟨sl, hsl, h⟩ := except_bind_ok h
  obtain ⟨u5, ha5, h⟩ := except_bind_ok h
  obtain ⟨ci, hci, h⟩ := except_bind_ok h
  obtain ⟨u6, ha6, h⟩ := except_bind_ok h
  obtain ⟨ev, hev, h⟩ := except_bind_ok h
  obtain ⟨pl, hpl, h⟩ := except_bind_ok h
  obtain ⟨sp, hsp, h⟩ := except_bind_ok h
  obtain ⟨chv, hchv, h⟩ := except_bind_ok h
  have hchT := jsAssert_ok h
  have hgsc : getSlackChannel p = .ok chv := by
    unfold getSlackChannel
    rw [hrid, ok_bind, hsl, ok_bind, hev, ok_bind, hpl, ok_bind, hsp, ok_bind]
    exact hchv
  have : ch = chv := Except.ok.inj (hch.symm.trans hgsc)
  rw [this]
  exact hchT

/-- C8: under the exclusive reading of the two inbound shapes, the
delivery endpoint is always one of the post-message endpoint, the
update endpoint, or the parsed payload's `response_url`; for the
event-only shape it is the post-message endpoint and the channel is
`event.channel`; for the payload-only shape the channel is the parsed
payload's `channel.id` and the endpoint is `response_url` when truthy,
else the update endpoint. -/
theorem c8_url_and_channel (p rid sl ev pl sp u ch : JSValue)
    (hval : validateParameters p = .ok ())
    (hrid : fget p "raw_input_data" = .ok rid)
    (hsl : fget rid "slack" = .ok sl)
    (hev : fget sl "event" = .ok ev)
    (hpl : fget sl "payload" = .ok pl)
    (hsp : payloadAnd pl = .ok sp)
    (hu : getSlackPostUrl p = .ok u)
    (hch : getSlackChannel p = .ok ch) :
    (u = .str urlChatPost ∨ u = .str urlChatUpdate ∨ u = getF sp "response_url") ∧
    (if truthy ev = true ∧ truthy pl = false then
       u = .str urlChatPost ∧ ch = getF ev "channel"
     else True) ∧
    (if truthy ev = false ∧ truthy pl = true then
       ch = getF (getF sp "channel") "id" ∧
       u = (if truthy (getF sp "response_url") = true then getF sp "response_url"
            else .str urlChatUpdate)
     else True) := by
  have hchT : truthy ch = true := validate_channel_truthy hval hch
  have hparse : truthy pl = true → jsonParse pl = .ok sp := by
    intro h
    unfold payloadAnd at hsp
    rw [if_pos h] at hsp
    exact hsp
  unfold getSlackPostUrl at hu
  rw [hrid, ok_bind, hsl, ok_bind, hpl, ok_bind] at hu
  have hUrl : if truthy pl = true then
      u = (if truthy (getF sp "response_url") = true then getF sp "response_url"
           else .str urlChatUpdate)
    else u = .str urlChatPost := by
    by_cases hplT : truthy pl = true
    · rw [if_pos hplT]
      rw [if_pos hplT, hparse hplT, ok_bind] at hu
      obtain ⟨ru, hru, hu⟩ := except_bind_ok hu
      obtain ⟨hspN, hruv⟩ := fget_ok hru
      by_cases hruT : truthy ru = true
      · rw [if_pos hruT, pure_ok] at hu
        rw [if_pos (hruv ▸ hruT)]
        rw [← hruv]
        exact (Except.ok.inj hu).symm
      · rw [if_neg hruT, pure_ok] at hu
        rw [if_neg (fun hc => hruT (hruv ▸ hc))]
        exact (Except.ok.inj hu).symm
    · rw [if_neg hplT]
      rw [if_neg hplT, pure_ok] at hu
      exact (Except.ok.inj hu).symm
  unfold getSlackChannel at hch
  rw [hrid, ok_bind, hsl, ok_bind, hev, ok_bind, hpl, ok_bind, hsp, ok_bind] at hch
  unfold resolveChannel at hch
  have hChan : if truthy ev = true then ch = getF ev "channel"
      else ch = getF (getF sp "channel") "id" := by
    by_cases hevT : truthy ev = true
    · rw [if_pos hevT]
      rw [if_pos hevT] at hch
      exact (fget_ok hch).2
    · rw [if_neg hevT]
      rw [if_neg hevT] at hch
      by_cases hspT : truthy sp = true
      · rw [if_pos hspT] at hch
        obtain ⟨chv0, hchv0, hch⟩ := except_bind_ok hch
        obtain ⟨hspN, hchv0v⟩ := fget_ok hchv0
        by_cases hcvT : truthy chv0 = true
        · rw [if_pos hcvT] at hch
          rw [← hchv0v]
          exact (fget_ok hch).2
        · rw [if_neg hcvT, pure_ok] at hch
          have : ch = chv0 := (Except.ok.inj hch).symm
          rw [this] at hchT
          exact absurd hchT hcvT
      · rw [if_neg hspT, pure_ok] at hch
        have hcsp : ch = sp := (Except.ok.inj hch).symm
        rw [hcsp] at hchT
        exact absurd hchT hspT
  refine ⟨?_, ?_, ?_⟩
  · by_cases hplT : truthy pl = true
    · rw [if_pos hplT] at hUrl
      by_cases hruT : truthy (getF sp "response_url") = true
      · rw [if_pos hruT] at hUrl
        exact Or.inr (Or.inr hUrl)
      · rw [if_neg hruT] at hUrl
        exact Or.inr (Or.inl hUrl)
    · rw [if_neg hplT] at hUrl
      exact Or.inl hUrl
  · by_cases hcond : truthy ev = true ∧ truthy pl = false
    · rw [if_pos hcond]
      obtain ⟨hevT, hplF⟩ := hcond
      rw [if_neg (by simp [hplF])] at hUrl
      rw [if_pos hevT] at hChan
      exact ⟨hUrl, hChan⟩
    · rw [if_neg hcond]
      trivial
  · by_cases hcond : truthy ev = false ∧ truthy pl = true
    · rw [if_pos hcond]
      obtain ⟨hevF, hplT⟩ := hcond
      rw [if_pos hplT] at hUrl
      rw [if_neg (by simp [hevF])] at hChan
      exact ⟨hChan, hUrl⟩
    · rw [if_neg hcond]
      trivial

/-- Witness for C8: the event-only input `pEvent5` gets the post-message
endpoint and the event's channel. -/
theorem c8_url_and_channel_witness :
    ((.str urlChatPost : JSValue) = .str urlChatPost ∨
     (.str urlChatPost : JSValue) = .str urlChatUpdate ∨
     (.str urlChatPost : JSValue) = getF JSValue.undef "response_url") ∧
    (if truthy (JSValue.obj [("channel", .str "C1")]) = true ∧ truthy JSValue.undef = false then
       (.str urlChatPost : JSValue) = .str urlChatPost ∧
       (.str "C1" : JSValue) = getF (.obj [("channel", .str "C1")]) "channel"
     else True) ∧
    (if truthy (JSValue.obj [("channel", .str "C1")]) = false ∧ truthy JSValue.undef = true then
       (.str "C1" : JSValue) = getF (getF JSValue.undef "channel") "id" ∧
       (.str urlChatPost : JSValue) =
         (if truthy (getF JSValue.undef "response_url") = true then getF JSValue.undef "response_url"
          else .str urlChatUpdate)
     else True) :=
  c8_url_and_channel pEvent5 ridEvent (.obj [("event", .obj [("channel", .str "C1")])])
    (.obj [("channel", .str "C1")]) .undef .undef (.str urlChatPost) (.str "C1")
    rfl rfl rfl rfl rfl rfl rfl rfl

/-! ### C9 -/

/-- Whether the platform override itself defines key `k` (the binding a
verbatim copy of its own fields leaves behind). -/
def ovHas (s : JSValue) (k : String) : Bool :=
  (assocLast (ownFields s) k).isSome

/-- C9: each resolved result carries exactly one injected body shape,
chosen by strict priority. Without a slack override, a result carrying a
`message` list carries neither `text` nor `attachments` (conjunct 1); a
truthy `generic` forces exactly the message shape (conjunct 2); without
`generic` no `message` is ever present (conjunct 3); and on the override
path the code injects nothing at all — `message`, `text`, `attachments`
and `ts` are present exactly when the override itself defines them
(conjunct 4). -/
theorem c9_single_output_shape (p res conv out s g : JSValue)
    (hres : Action.main p = .resolved res)
    (hconv : fget p "conversation" = .ok conv)
    (hout : fget conv "output" = .ok out)
    (hs : fget out "slack" = .ok s)
    (hg : fget out "generic" = .ok g) :
    ((truthy s || !hasField res "message" ||
      (!hasField res "text" && !hasField res "attachments")) = true) ∧
    ((truthy s || !truthy g || (hasField res "message" && !hasField res "text" &&
      !hasField res "attachments")) = true) ∧
    ((truthy s || truthy g || !hasField res "message") = true) ∧
    ((!truthy s || ((hasField res "message" == ovHas s "message") &&
      (hasField res "text" == ovHas s "text") &&
      (hasField res "attachments" == ovHas s "attachments") &&
      (hasField res "ts" == ovHas s "ts"))) = true) := by
  obtain ⟨ch, url, rid2, conv2, hval, hch, hurl, hrid2, hconv2, hins⟩ :=
    mainBody_ok_inv (main_resolved_inv hres)
  unfold insertConversationOutput at hins
  rw [hconv, ok_bind, hout, ok_bind, hs, ok_bind] at hins
  by_cases hsT : truthy s = true
  · rw [if_pos hsT, pure_ok] at hins
    have hresv := (Except.ok.inj hins).symm
    subst hresv
    have hbase : ∀ k, hasField (copyKeysOnto s (objectAssignEmpty (mkBase ch url rid2 conv2))) k =
        (ovHas s k || hasField (mkBase ch url rid2 conv2) k) := by
      intro k
      exact hasField_copyFold (ownFields s) _ k
    refine ⟨by simp [hsT], by simp [hsT], by simp [hsT], ?_⟩
    rw [hbase "message", hbase "text", hbase "attachments", hbase "ts"]
    simp [hsT, mkBase, hasField, lookupField]
  · rw [if_neg hsT] at hins
    have hsF : truthy s = false := by simpa using hsT
    obtain ⟨ts, hts, hins⟩ := except_bind_ok hins
    rw [hg, ok_bind] at hins
    by_cases hgT : truthy g = true
    · rw [if_pos hgT] at hins
      obtain ⟨msgs, hmsgs, hins⟩ := except_bind_ok hins
      rw [pure_ok] at hins
      have hresv := (Except.ok.inj hins).symm
      subst hresv
      refine ⟨?_, ?_, ?_, ?_⟩ <;>
        cases hts' : truthy ts <;>
          simp [hsF, hgT, withTs, hts', mkBase, objectAssignEmpty, ownFields, setField,
            setFieldList, hasField, getF, lookupField]
    · have hgF : truthy g = false := by simpa using hgT
      rw [if_neg hgT] at hins
      obtain ⟨tv, htv, hins⟩ := except_bind_ok hins
      obtain ⟨av, hav, hins⟩ := except_bind_ok hins
      rw [pure_ok] at hins
      have hresv := (Except.ok.inj hins).symm
      subst hresv
      refine ⟨?_, ?_, ?_, ?_⟩ <;>
        cases hts' : truthy ts <;>
          by_cases htvT : truthy tv = true <;>
            by_cases havT : truthy av = true <;>
              simp [hsF, hgF, withTs, hts', htvT, havT, mkBase, objectAssignEmpty, ownFields,
                setField, setFieldList, hasField, getF, lookupField]

def genericList9 : JSValue :=
  .arr [.obj [("response_type", .str "text"), ("text", .str "hi")],
    .obj [("response_type", .str "unknown")]]

/-- The value `pGeneric` resolves with. -/
def resultOfGeneric : JSValue :=
  setField (withTs (mkBase (.str "C1") (.str urlChatPost) ridEvent convGeneric) .undef)
    "message" (.arr [.obj [("text", .str "hi")]])

/-- Witness for C9: the generic input `pGeneric` resolves with a
message-only body. -/
theorem c9_single_output_shape_witness :
    ((truthy JSValue.undef || !hasField (resultOfGeneric) "message" ||
      (!hasField resultOfGeneric "text" && !hasField resultOfGeneric "attachments")) = true) ∧
    ((truthy JSValue.undef || !truthy genericList9 ||
      (hasField resultOfGeneric "message" && !hasField resultOfGeneric "text" &&
       !hasField resultOfGeneric "attachments")) = true) ∧
    ((truthy JSValue.undef || truthy genericList9 || !hasField resultOfGeneric "message") = true) ∧
    ((!truthy JSValue.undef || ((hasField resultOfGeneric "message" == ovHas JSValue.undef "message") &&
      (hasField resultOfGeneric "text" == ovHas JSValue.undef "text") &&
      (hasField resultOfGeneric "attachments" == ovHas JSValue.undef "attachments") &&
      (hasField resultOfGeneric "ts" == ovHas JSValue.undef "ts"))) = true) :=
  c9_single_output_shape pGeneric resultOfGeneric convGeneric
    (.obj [("generic", genericList9)]) .undef genericList9
    rfl rfl rfl rfl rfl

/-! ### C10 -/

/-- C10: when the inbound slack data carries both an `event` and a
`payload`, the two shapes are not rejected or treated as exclusive — the
channel comes from the event, the delivery endpoint from the parsed
payload (`response_url` when truthy, else the update endpoint), the
fallback text from the conversation output's joined text list (the event
rule), and the timestamp from the event. -/
theorem c10_mixed_shapes (p rid sl ev pl pay conv out txt : JSValue)
    (hval : validateParameters p = .ok ())
    (hrid : fget p "raw_input_data" = .ok rid)
    (hsl : fget rid "slack" = .ok sl)
    (hev : fget sl "event" = .ok ev) (hevT : truthy ev = true)
    (hpl : fget sl "payload" = .ok pl) (hplT : truthy pl = true)
    (hparse : jsonParse pl = .ok pay) (hpayN : notNullish pay = true)
    (hconv : fget p "conversation" = .ok conv)
    (hout : fget conv "output" = .ok out)
    (htxt : fget out "text" = .ok txt) :
    getSlackChannel p = .ok (getF ev "channel") ∧
    getSlackPostUrl p = .ok (if truthy (getF pay "response_url") = true
      then getF pay "response_url" else .str urlChatUpdate) ∧
    getOutputText p = jsJoin txt " " ∧
    getOriginalMessageTimestamp p = .ok (eventTs ev) := by
  have hpa : payloadAnd pl = .ok pay := by
    unfold payloadAnd
    rw [if_pos hplT]
    exact hparse
  refine ⟨?_, ?_, ?_, ?_⟩
  · unfold getSlackChannel resolveChannel
    rw [hrid, ok_bind, hsl, ok_bind, hev, ok_bind, hpl, ok_bind, hpa, ok_bind,
      if_pos hevT, fget_eq_getF hevT]
  · unfold getSlackPostUrl
    rw [hrid, ok_bind, hsl, ok_bind, hpl, ok_bind, if_pos hplT, hparse, ok_bind,
      fget_eq_getF_notNullish hpayN "response_url", ok_bind]
    by_cases hruT : truthy (getF pay "response_url") = true
    · rw [if_pos hruT, if_pos hruT, pure_ok]
    · rw [if_neg hruT, if_neg hruT, pure_ok]
  · unfold getOutputText
    rw [hrid, ok_bind, hsl, ok_bind, hev, ok_bind, hpl, ok_bind, hpa, ok_bind,
      if_pos hevT, hconv, ok_bind, hout, ok_bind, htxt, ok_bind]
  · unfold getOriginalMessageTimestamp
    rw [hrid, ok_bind, hsl, ok_bind, hev, ok_bind, hpl, ok_bind, hpa, ok_bind,
      if_pos hevT, fget_eq_getF hevT "message", ok_bind]
    by_cases hm : truthy (getF ev "message") = true
    · rw [show jsAndE (getF ev "message") (fget (getF ev "message") "ts") =
          .ok (getF (getF ev "message") "ts") from by
        simp [jsAndE, hm, fget_eq_getF hm], ok_bind]
      by_cases hmts : truthy (getF (getF ev "message") "ts") = true
      · rw [if_pos hmts, pure_ok]
        unfold eventTs
        rw [if_pos (by simp [hm, hmts])]
      · rw [if_neg hmts, fget_eq_getF hevT "ts"]
        unfold eventTs
        rw [if_neg (by simp [hmts])]
    · have hm' : truthy (getF ev "message") = false := by simpa using hm
      rw [show jsAndE (getF ev "message") (fget (getF ev "message") "ts") =
          .ok (getF ev "message") from by simp [jsAndE, hm', pure_ok], ok_bind,
        if_neg (by simp [hm']), fget_eq_getF hevT "ts"]
      unfold eventTs
      rw [if_neg (by simp [hm'])]

/-- Inbound slack data carrying both an event and a payload. -/
def ridBoth : JSValue :=
  .obj [("slack", .obj [("event", .obj [("channel", .str "C1")]),
    ("payload", .str payloadStr5)]), ("conversation", .obj [])]

def pBoth : JSValue :=
  .obj [("conversation", .obj [("output", .obj [("text", .arr [.str "a", .str "b"])])]),
    ("raw_input_data", ridBoth)]

/-- Witness for C10: `pBoth` carries both shapes and is accepted — the
channel comes from the event while the url comes from the payload. -/
theorem c10_mixed_shapes_witness :
    getSlackChannel pBoth = .ok (getF (.obj [("channel", .str "C1")]) "channel") ∧
    getSlackPostUrl pBoth = .ok (if truthy (getF payloadVal5 "response_url") = true
      then getF payloadVal5 "response_url" else .str urlChatUpdate) ∧
    getOutputText pBoth = jsJoin (.arr [.str "a", .str "b"]) " " ∧
    getOriginalMessageTimestamp pBoth = .ok (eventTs (.obj [("channel", .str "C1")])) :=
  c10_mixed_shapes pBoth ridBoth
    (.obj [("event", .obj [("channel", .str "C1")]), ("payload", .str payloadStr5)])
    (.obj [("channel", .str "C1")]) (.str payloadStr5) payloadVal5
    (.obj [("output", .obj [("text", .arr [.str "a", .str "b"])])])
    (.obj [("text", .arr [.str "a", .str "b"])])
    (.arr [.str "a", .str "b"])
    rfl rfl rfl rfl rfl rfl rfl rfl rfl rfl rfl rfl
